import Mathlib

/-!
Verification development for the decklyst deck-sharing pages.

The definitions below are a shallow embedding of the two source files
`src/pages/decks/[code].tsx` (both page variants: the statically generated
one built on `getStaticPaths`/`getStaticProps`, and the server-rendered one
built on `getServerSideProps`) and
`src/components/Deckbuilder/SaveDeckDialog.tsx`.

External collaborators (the tRPC procedures `decklyst.get`, `getDeckinfo`,
`ensureDeckinfo`, `registerView`, the deckcode validator and decoder) are
modelled as function parameters: the page code treats them as black boxes,
and the theorems quantify over them.
-/

namespace Decklyst

/-- Privacy levels of a decklyst record, the closed enumeration from the
persistence layer's schema (`private`, `unlisted`, `public`). -/
inductive Privacy where
  | «private»
  | unlisted
  | «public»
deriving DecidableEq, Repr

/-- A persisted decklyst record, as selected by the page code: a canonical
deckcode, a sharecode and a privacy level. -/
structure DecklystRecord where
  deckcode : String
  sharecode : String
  privacy : Privacy
deriving DecidableEq, Repr

/-! ### JavaScript `encodeURIComponent`

`getStaticPaths` maps every code through `encodeURIComponent`.  The JS
builtin leaves the unreserved characters `A-Z a-z 0-9 - _ . ! ~ * ' ( )`
unescaped and percent-encodes every other character's UTF-8 bytes with
uppercase hexadecimal digits. -/

/-- Characters `encodeURIComponent` leaves unescaped. -/
def isUnreservedURIChar (c : Char) : Bool :=
  c.isAlphanum || c = '-' || c = '_' || c = '.' || c = '!' || c = '~' ||
    c = '*' || c = Char.ofNat 39 || c = '(' || c = ')'

/-- Uppercase hexadecimal digit for a value below 16. -/
def hexDigit (n : Nat) : Char :=
  if n < 10 then Char.ofNat (48 + n) else Char.ofNat (55 + n)

/-- `%XX` escape of one byte. -/
def percentEncodeByte (b : Nat) : String :=
  String.mk ['%', hexDigit (b / 16), hexDigit (b % 16)]

/-- UTF-8 encoding of a character, as a list of byte values. -/
def utf8Bytes (c : Char) : List Nat :=
  let n := c.toNat
  if n < 128 then [n]
  else if n < 2048 then [192 + n / 64, 128 + n % 64]
  else if n < 65536 then [224 + n / 4096, 128 + n / 64 % 64, 128 + n % 64]
  else [240 + n / 262144, 128 + n / 4096 % 64, 128 + n / 64 % 64, 128 + n % 64]

/-- JavaScript `encodeURIComponent`. -/
def encodeURIComponent (s : String) : String :=
  String.join (s.data.map fun c =>
    if isUnreservedURIChar c then String.singleton c
    else String.join ((utf8Bytes c).map percentEncodeByte))

/-! ### lodash `uniqBy`

`uniqBy(list, key)` keeps, for every key value, the first element of the
list with that key, in order of first appearance. -/

/-- Worker for `uniqBy`: `seen` accumulates the keys already emitted. -/
def uniqByAux {α β : Type} [DecidableEq β] (key : α → β) (seen : List β) :
    List α → List α
  | [] => []
  | x :: xs =>
    if key x ∈ seen then uniqByAux key seen xs
    else x :: uniqByAux key (key x :: seen) xs

/-- lodash `uniqBy`: deduplicate a list by a key function, keeping first
occurrences. -/
def uniqBy {α β : Type} [DecidableEq β] (l : List α) (key : α → β) : List α :=
  uniqByAux key [] l

/-! ### `getStaticPaths` of the statically generated deck page -/

/-- The candidate path list built by `getStaticPaths` before deduplication:
the database returns every decklyst whose privacy is not `private`; each
record contributes its deckcode and its sharecode; each code becomes the
path `/decks/` + `encodeURIComponent(code)`; paths of length 0 or above 205
are dropped. -/
def staticPathCandidates (rows : List DecklystRecord) : List String :=
  (((rows.filter fun r => r.privacy ≠ Privacy.«private»).flatMap
      fun r => [r.deckcode, r.sharecode]).map
    fun code => "/decks/" ++ encodeURIComponent code).filter
    fun code => decide (0 < code.length) && decide (code.length ≤ 205)

/-- Result shape of `getStaticPaths`. -/
structure StaticPathsResult where
  paths : List String
  fallback : String
deriving DecidableEq, Repr

/-- `getStaticPaths`: deduplicate the candidate paths case-insensitively
(lodash `uniqBy` keyed by `toLowerCase`) and request blocking fallback. -/
def getStaticPaths (rows : List DecklystRecord) : StaticPathsResult :=
  { paths := uniqBy (staticPathCandidates rows) fun code => code.toLower
    fallback := "blocking" }

/-! ### `getStaticProps` of the statically generated deck page -/

/-- A cached query of the SSG client: the query input (the code) paired with
the decklyst it returned. -/
abbrev CachedQuery : Type := String × DecklystRecord

/-- react-query `dehydrate` with a `shouldDehydrateQuery` option: the
dehydrated state keeps exactly the cached queries the predicate accepts. -/
def dehydrate (cache : List CachedQuery)
    (shouldDehydrateQuery : CachedQuery → Bool) : List CachedQuery :=
  cache.filter shouldDehydrateQuery

/-- Result of `getStaticProps`: either `notFound` (with or without the
`revalidate: true` flag) or page props carrying the code, the dehydrated
tRPC state and the (possibly nulled) decklyst. -/
inductive StaticPropsResult where
  | notFound (revalidate : Bool)
  | props (code : String) (trpcState : List CachedQuery)
      (decklyst : Option DecklystRecord)
deriving DecidableEq, Repr

/-- `getStaticProps`: a missing or empty route parameter is not-found
(JavaScript `!code` is true for `undefined` and for the empty string);
otherwise the decklyst is fetched through the SSG client (modelled by the
`fetch` parameter).  An unresolved code is not-found with revalidation.  A
resolved decklyst yields props; when its privacy is `private` the decklyst
prop is `null` and the dehydrate predicate is constantly false, so no query
is dehydrated. -/
def getStaticProps (fetch : String → Option DecklystRecord)
    (code : Option String) : StaticPropsResult :=
  match code with
  | none => StaticPropsResult.notFound false
  | some c =>
    if c = "" then StaticPropsResult.notFound false
    else
      match fetch c with
      | none => StaticPropsResult.notFound true
      | some decklyst =>
        let isPrivate := decide (decklyst.privacy = Privacy.«private»)
        StaticPropsResult.props c
          (dehydrate [(c, decklyst)] fun _ => !isPrivate)
          (if isPrivate then none else some decklyst)

/-! ### Client-side query options of the deck page

The page component queries `trpc.decklyst.get` with a retry predicate, and
the server-rendered variant polls `ensureDeckimage` with `retry: true` and
an exponential `retryDelay`. -/

/-- Retry predicate of the `decklyst.get` query on the deck page:
`(count, error) => error.data?.code === 'UNAUTHORIZED' ? false : count < 3`.
The error's code is optional (`data?.code`), hence `Option String`. -/
def decklystGetRetry (count : Nat) (errorCode : Option String) : Bool :=
  if errorCode = some "UNAUTHORIZED" then false else decide (count < 3)

/-- The `retry` option of a react-query query: either a boolean or a maximum
number of retries. -/
inductive RetryOption where
  | bool (b : Bool)
  | count (n : Nat)
deriving DecidableEq, Repr

/-- react-query retry semantics for boolean/number `retry` options: `true`
retries every failure indefinitely, `false` never retries, a number `n`
retries while the failure count is below `n`. -/
def shouldRetry (opt : RetryOption) (failureCount : Nat) : Bool :=
  match opt with
  | RetryOption.bool b => b
  | RetryOption.count n => decide (failureCount < n)

/-- The options of the deck-image polling query. -/
structure DeckImageQueryOptions where
  enabled : Bool
  retry : RetryOption
  retryDelay : Int → Int

/-- Options passed to the `deck-image` query in the server-rendered deck
page: enabled unless the view is a snapshot, `retry: true`, and
`retryDelay: (retryCount) => 1000 * Math.pow(2, Math.max(0, retryCount - 5))`. -/
def deckImageQueryOptions (isSnapshot : Bool) : DeckImageQueryOptions :=
  { enabled := !isSnapshot
    retry := RetryOption.bool true
    retryDelay := fun retryCount => 1000 * 2 ^ (max 0 (retryCount - 5)).toNat }

/-! ### `getServerSideProps` of the server-rendered deck page -/

/-- The deck info returned by the `getDeckinfo` query / `ensureDeckinfo`
mutation; both fields are optional (the page code guards them with `??`). -/
structure DeckInfo where
  deckcode : Option String
  sharecode : Option String
deriving DecidableEq, Repr

/-- A decoded deck as far as this page needs it: its list of cards (card
ids). -/
structure Deck where
  cards : List Nat
deriving DecidableEq, Repr

/-- External collaborators of `getServerSideProps`: the SSR client's
procedures and the deckcode module. -/
structure ServerEnv where
  getDeckinfo : String → Option DeckInfo
  ensureDeckinfo : String → Option DeckInfo
  validateDeckcode : Option String → Bool
  createDeck : Option String → Deck

/-- The query-string parameters of the server-rendered deck page. -/
structure ServerQuery where
  code : Option String
  snapshot : Option String
deriving DecidableEq, Repr

/-- `+((query.snapshot as string | undefined) ?? '0') === 1`: the snapshot
parameter defaults to `'0'` and is coerced to a number (modelled with
`String.toNat?`, which agrees with the JavaScript coercion on the plain
decimal strings the route uses) and compared with 1. -/
def parseSnapshot (snapshot : Option String) : Bool :=
  (snapshot.getD "0").toNat? = some 1

/-- Resolution of the deckcode and sharecode from the route code: when a
non-empty code is present, the deck info is looked up (`getDeckinfo` for
snapshots, `ensureDeckinfo` otherwise) and
`deckcode = deck?.deckcode ?? deckcode`, `sharecode = deck?.sharecode ?? null`. -/
def resolveCodes (env : ServerEnv) (snapshot : Bool) (code : Option String) :
    Option String × Option String :=
  match code with
  | none => (none, none)
  | some c =>
    if c = "" then (some c, none)
    else
      let deck := if snapshot then env.getDeckinfo c else env.ensureDeckinfo c
      ((deck.bind DeckInfo.deckcode).getD c |> some, deck.bind DeckInfo.sharecode)

/-- The deckcode `getServerSideProps` validates and decodes for a query. -/
def resolvedDeckcode (env : ServerEnv) (query : ServerQuery) : Option String :=
  (resolveCodes env (parseSnapshot query.snapshot) query.code).1

/-- Result of `getServerSideProps`: `notFound` or the page props. -/
inductive ServerSideResult where
  | notFound
  | props (deck : Deck) (sharecode : Option String) (isSnapshot : Bool)
deriving DecidableEq, Repr

/-- `getServerSideProps`: resolve the deckcode, return not-found when it
fails validation or decodes to zero cards, otherwise register a view unless
the request is a snapshot and return the deck props.  The boolean of the
pair records whether the `registerView` mutation was issued. -/
def getServerSideProps (env : ServerEnv) (query : ServerQuery) :
    ServerSideResult × Bool :=
  let snapshot := parseSnapshot query.snapshot
  let codes := resolveCodes env snapshot query.code
  if env.validateDeckcode codes.1 = false then (ServerSideResult.notFound, false)
  else
    let deck := env.createDeck codes.1
    if deck.cards.length = 0 then (ServerSideResult.notFound, false)
    else (ServerSideResult.props deck codes.2 snapshot, !snapshot)

/-! ### `SaveDeckDialog.handleClose` -/

/-- Observable effects of the save-deck dialog's close handler. -/
inductive DialogAction where
  | onClose
deriving DecidableEq, Repr

/-- `handleClose` of the save-deck dialog: `if (isSaving) return; onClose()`.
The result is the list of callbacks the handler invokes. -/
def handleClose (isSaving : Bool) : List DialogAction :=
  if isSaving then [] else [DialogAction.onClose]

/-! ### Lemmas about `uniqBy` -/

/-- Every element of `uniqByAux` comes from the input list. -/
theorem mem_of_mem_uniqByAux {α β : Type} [DecidableEq β] (key : α → β)
    (seen : List β) (l : List α) (x : α)
    (hx : x ∈ uniqByAux key seen l) : x ∈ l := by
  induction l generalizing seen with
  | nil => simp [uniqByAux] at hx
  | cons y ys ih =>
    simp only [uniqByAux] at hx
    split at hx
    · exact List.mem_cons_of_mem y (ih seen hx)
    · rcases List.mem_cons.mp hx with h1 | h2
      · exact h1 ▸ List.mem_cons_self y ys
      · exact List.mem_cons_of_mem y (ih _ h2)

/-- `uniqByAux` never emits an element whose key was already seen. -/
theorem key_not_seen_of_mem_uniqByAux {α β : Type} [DecidableEq β] (key : α → β)
    (seen : List β) (l : List α) (x : α)
    (hx : x ∈ uniqByAux key seen l) : key x ∉ seen := by
  induction l generalizing seen with
  | nil => simp [uniqByAux] at hx
  | cons y ys ih =>
    simp only [uniqByAux] at hx
    split at hx
    · exact ih seen hx
    · rcases List.mem_cons.mp hx with h1 | h2
      · subst h1; assumption
      · intro hmem
        exact ih (key y :: seen) h2 (List.mem_cons_of_mem _ hmem)

/-- The keys of the output of `uniqByAux` are pairwise distinct. -/
theorem pairwise_uniqByAux {α β : Type} [DecidableEq β] (key : α → β)
    (seen : List β) (l : List α) :
    (uniqByAux key seen l).Pairwise fun a b => key a ≠ key b := by
  induction l generalizing seen with
  | nil => simp [uniqByAux]
  | cons y ys ih =>
    simp only [uniqByAux]
    split
    · exact ih seen
    · refine List.Pairwise.cons ?_ (ih (key y :: seen))
      intro b hb heq
      exact key_not_seen_of_mem_uniqByAux key _ _ b hb
        (by rw [← heq]; exact List.mem_cons_self _ _)

/-- Every element retained by `uniqByAux` is the first element of the input
list bearing its key. -/
theorem find?_eq_of_mem_uniqByAux {α β : Type} [DecidableEq β] (key : α → β)
    (seen : List β) (l : List α) (x : α)
    (hx : x ∈ uniqByAux key seen l) :
    l.find? (fun y => decide (key y = key x)) = some x := by
  induction l generalizing seen with
  | nil => simp [uniqByAux] at hx
  | cons y ys ih =>
    simp only [uniqByAux] at hx
    split at hx
    · have hxs := key_not_seen_of_mem_uniqByAux key seen ys x hx
      have hne : ¬ key y = key x := fun he => hxs (he ▸ ‹key y ∈ seen›)
      rw [List.find?_cons_of_neg _ (by simpa using hne)]
      exact ih seen hx
    · rcases List.mem_cons.mp hx with h1 | h2
      · subst h1
        exact List.find?_cons_of_pos _ (by simp)
      · have hxs := key_not_seen_of_mem_uniqByAux key _ _ x h2
        have hne : ¬ key y = key x := fun he =>
          hxs (by rw [← he]; exact List.mem_cons_self _ _)
        rw [List.find?_cons_of_neg _ (by simpa using hne)]
        exact ih (key y :: seen) h2

/-- Every element of `uniqBy` comes from the input list. -/
theorem mem_of_mem_uniqBy {α β : Type} [DecidableEq β] (key : α → β)
    (l : List α) (x : α) (hx : x ∈ uniqBy l key) : x ∈ l :=
  mem_of_mem_uniqByAux key [] l x hx

/-- The keys of the output of `uniqBy` are pairwise distinct. -/
theorem pairwise_uniqBy {α β : Type} [DecidableEq β] (key : α → β) (l : List α) :
    (uniqBy l key).Pairwise fun a b => key a ≠ key b :=
  pairwise_uniqByAux key [] l

/-- Every element retained by `uniqBy` is the first element of the input
list bearing its key. -/
theorem find?_eq_of_mem_uniqBy {α β : Type} [DecidableEq β] (key : α → β)
    (l : List α) (x : α) (hx : x ∈ uniqBy l key) :
    l.find? (fun y => decide (key y = key x)) = some x :=
  find?_eq_of_mem_uniqByAux key [] l x hx

/-! ### Concrete fixtures used by witnesses and counterexamples -/

/-- A private decklyst record. -/
def privateRecord : DecklystRecord :=
  { deckcode := "CODEAAA", sharecode := "share1", privacy := Privacy.«private» }

/-- A fetch function resolving the code `abc` to `privateRecord`. -/
def privateFetch : String → Option DecklystRecord :=
  fun c => if c = "abc" then some privateRecord else none

/-- A route code of 206 characters. -/
def longCode : String := String.mk (List.replicate 206 'a')

/-- A public decklyst record whose deckcode is `longCode`. -/
def overlongRecord : DecklystRecord :=
  { deckcode := longCode, sharecode := "share2", privacy := Privacy.«public» }

/-- A fetch function resolving `longCode` to `overlongRecord`. -/
def overlongFetch : String → Option DecklystRecord :=
  fun c => if c = longCode then some overlongRecord else none

/-! ### Claim theorems -/

/-- Claim C1: whenever `getStaticProps` fetches a decklyst whose privacy is
`private`, the returned props contain no decklyst data: the `decklyst` prop
is `null` and the dehydrated `trpcState` contains no queries. -/
theorem getStaticProps_private_excluded (fetch : String → Option DecklystRecord)
    (c : String) (d : DecklystRecord) (hc : c ≠ "") (hf : fetch c = some d)
    (hp : d.privacy = Privacy.«private») :
    getStaticProps fetch (some c) = StaticPropsResult.props c [] none := by
  simp [getStaticProps, hc, hf, hp, dehydrate]

/-- Witness for C1: a concrete private decklyst resolved at code `abc`. -/
theorem getStaticProps_private_excluded_witness :
    getStaticProps privateFetch (some "abc") = StaticPropsResult.props "abc" [] none :=
  getStaticProps_private_excluded privateFetch "abc" privateRecord
    (by decide) rfl rfl

/-- Claim C9: a code resolving to an existing decklyst with privacy
`private` does not produce a not-found result: `getStaticProps` returns a
props result whose `decklyst` prop is `null`. -/
theorem getStaticProps_private_renders (fetch : String → Option DecklystRecord)
    (c : String) (d : DecklystRecord) (hc : c ≠ "") (hf : fetch c = some d)
    (hp : d.privacy = Privacy.«private») :
    ∃ st, getStaticProps fetch (some c) = StaticPropsResult.props c st none := by
  refine ⟨[], ?_⟩
  simp [getStaticProps, hc, hf, hp, dehydrate]

/-- Witness for C9: the concrete private decklyst again yields props. -/
theorem getStaticProps_private_renders_witness :
    ∃ st, getStaticProps privateFetch (some "abc") =
      StaticPropsResult.props "abc" st none :=
  getStaticProps_private_renders privateFetch "abc" privateRecord
    (by decide) rfl rfl

set_option maxRecDepth 8192 in
/-- Counterexample for C2: a code of 206 characters that resolves to a
decklyst yields a props result, not a not-found result — `getStaticProps`
applies no 205-character length bound. -/
theorem getStaticProps_overlong_counterexample :
    205 < longCode.length ∧
    getStaticProps overlongFetch (some longCode) =
      StaticPropsResult.props longCode [(longCode, overlongRecord)]
        (some overlongRecord) := by
  constructor
  · show 205 < (String.mk (List.replicate 206 'a')).length
    simp [String.length]
  · rfl

/-- Claim C2 (amended): a missing code, an empty code, or a code that no
decklyst record resolves yields a not-found result; the 205-character bound
applies only to static path generation, not to `getStaticProps`. -/
theorem getStaticProps_notFound_conditions
    (fetch : String → Option DecklystRecord) (c : String)
    (hc : c ≠ "") (hf : fetch c = none) :
    getStaticProps fetch none = StaticPropsResult.notFound false ∧
    getStaticProps fetch (some "") = StaticPropsResult.notFound false ∧
    getStaticProps fetch (some c) = StaticPropsResult.notFound true := by
  refine ⟨rfl, rfl, ?_⟩
  simp [getStaticProps, hc, hf]

/-- Witness for the amended C2: a fetch that resolves nothing, at code `x`. -/
theorem getStaticProps_notFound_conditions_witness :
    getStaticProps (fun _ => none) none = StaticPropsResult.notFound false ∧
    getStaticProps (fun _ => none) (some "") = StaticPropsResult.notFound false ∧
    getStaticProps (fun _ => none) (some "x") = StaticPropsResult.notFound true :=
  getStaticProps_notFound_conditions (fun _ => none) "x" (by decide) rfl

/-- Claim C3: the retry predicate of the deck page's `decklyst.get` query
returns false for an `UNAUTHORIZED` error, and for every other error it
retries exactly while the failure count is below three. -/
theorem decklystGetRetry_spec (count : Nat) (errorCode : Option String) :
    decklystGetRetry count (some "UNAUTHORIZED") = false ∧
    (errorCode ≠ some "UNAUTHORIZED" →
      (decklystGetRetry count errorCode = true ↔ count < 3)) := by
  refine ⟨by simp [decklystGetRetry], fun h => ?_⟩
  simp [decklystGetRetry, h]

/-- Witness for C3: at failure count 2 a generic error retries, and an
unauthorized error at count 4 does not. -/
theorem decklystGetRetry_spec_witness :
    decklystGetRetry 2 none = true ∧
    decklystGetRetry 4 (some "UNAUTHORIZED") = false :=
  ⟨((decklystGetRetry_spec 2 none).2 (by decide)).mpr (by decide),
   (decklystGetRetry_spec 4 none).1⟩

/-- Counterexample for C4: the deck-image query's retry option is
`retry: true`, which retries indefinitely — there is no maximum attempt
count after which retrying stops. -/
theorem deckImageRetry_uncapped_counterexample :
    ¬ ∃ N : Nat, ∀ n : Nat, N ≤ n →
      shouldRetry (deckImageQueryOptions false).retry n = false := by
  rintro ⟨N, h⟩
  have hN := h N (Nat.le_refl N)
  simp [deckImageQueryOptions, shouldRetry] at hN

/-- Claim C4 (amended): the deck-image polling fetch retries with
exponential backoff — the delay for retry attempt `n` is
`1000 * 2 ^ max 0 (n - 5)` milliseconds — but the retry option is
`retry: true`, so every failure is retried and the retry sequence is not
bounded by a maximum attempt count. -/
theorem deckImageRetry_spec (isSnapshot : Bool) (retryCount : Int) (n : Nat) :
    (deckImageQueryOptions isSnapshot).retryDelay retryCount =
      1000 * 2 ^ (max 0 (retryCount - 5)).toNat ∧
    shouldRetry (deckImageQueryOptions isSnapshot).retry n = true := by
  exact ⟨rfl, rfl⟩

/-- A public decklyst record with distinct-case codes. -/
def publicRecord : DecklystRecord :=
  { deckcode := "Deck1", sharecode := "DECK1", privacy := Privacy.«public» }

/-- An environment for the server-rendered page whose validator accepts
everything and whose decoder yields an empty deck. -/
def emptyDeckEnv : ServerEnv :=
  { getDeckinfo := fun _ => none
    ensureDeckinfo := fun _ => none
    validateDeckcode := fun _ => true
    createDeck := fun _ => { cards := [] } }

/-- Claim C5: every path produced by `getStaticPaths` comes from a decklyst
record whose privacy is not `private`; private records contribute no path. -/
theorem getStaticPaths_excludes_private (rows : List DecklystRecord) (p : String)
    (hp : p ∈ (getStaticPaths rows).paths) :
    ∃ r ∈ rows, r.privacy ≠ Privacy.«private» ∧
      (p = "/decks/" ++ encodeURIComponent r.deckcode ∨
       p = "/decks/" ++ encodeURIComponent r.sharecode) := by
  have hc : p ∈ staticPathCandidates rows := mem_of_mem_uniqBy _ _ _ hp
  rcases List.mem_filter.mp hc with ⟨hmap, _⟩
  rcases List.mem_map.mp hmap with ⟨code, hflat, rfl⟩
  rcases List.mem_flatMap.mp hflat with ⟨r, hrf, hcode⟩
  rcases List.mem_filter.mp hrf with ⟨hr, hq⟩
  refine ⟨r, hr, by simpa using hq, ?_⟩
  rcases List.mem_cons.mp hcode with h | h
  · exact Or.inl (by rw [h])
  · exact Or.inr (by rw [List.mem_singleton.mp h])

/-- Witness for C5: the path of a concrete public record is traced back to
that record. -/
theorem getStaticPaths_excludes_private_witness :
    ∃ r ∈ [publicRecord], r.privacy ≠ Privacy.«private» ∧
      ("/decks/Deck1" = "/decks/" ++ encodeURIComponent r.deckcode ∨
       "/decks/Deck1" = "/decks/" ++ encodeURIComponent r.sharecode) :=
  getStaticPaths_excludes_private [publicRecord] "/decks/Deck1" (by decide)

/-- Claim C6: the paths returned by `getStaticPaths` are deduplicated
case-insensitively — any two of them differ after lowercasing — and every
retained path is the first candidate bearing its lowercased form. -/
theorem getStaticPaths_dedup_case_insensitive (rows : List DecklystRecord) :
    ((getStaticPaths rows).paths.Pairwise fun a b => a.toLower ≠ b.toLower) ∧
    ∀ p ∈ (getStaticPaths rows).paths,
      (staticPathCandidates rows).find?
        (fun q => decide (q.toLower = p.toLower)) = some p :=
  ⟨pairwise_uniqBy _ _, fun p hp => find?_eq_of_mem_uniqBy _ _ p hp⟩

/-- Witness for C6: with one record whose deckcode and sharecode differ only
in case, the single retained path is the first candidate for its key. -/
theorem getStaticPaths_dedup_case_insensitive_witness :
    ((getStaticPaths [publicRecord]).paths.Pairwise
      fun a b => a.toLower ≠ b.toLower) ∧
    (staticPathCandidates [publicRecord]).find?
      (fun q => decide (q.toLower = "/decks/Deck1".toLower)) = some "/decks/Deck1" :=
  ⟨(getStaticPaths_dedup_case_insensitive [publicRecord]).1,
   (getStaticPaths_dedup_case_insensitive [publicRecord]).2 "/decks/Deck1" (by decide)⟩

/-- Claim C7: when the resolved deckcode passes validation but decodes to a
deck with zero cards, `getServerSideProps` returns a not-found result. -/
theorem getServerSideProps_zero_cards_notFound (env : ServerEnv)
    (query : ServerQuery)
    (hv : env.validateDeckcode (resolvedDeckcode env query) = true)
    (hz : (env.createDeck (resolvedDeckcode env query)).cards = []) :
    (getServerSideProps env query).1 = ServerSideResult.notFound := by
  rw [resolvedDeckcode] at hv hz
  simp [getServerSideProps, hv, hz]

/-- Witness for C7: an environment that validates everything and decodes an
empty deck yields not-found. -/
theorem getServerSideProps_zero_cards_notFound_witness :
    (getServerSideProps emptyDeckEnv { code := some "abc", snapshot := none }).1 =
      ServerSideResult.notFound :=
  getServerSideProps_zero_cards_notFound emptyDeckEnv
    { code := some "abc", snapshot := none } rfl rfl

/-- Claim C8: `getServerSideProps` issues the `registerView` mutation if and
only if the request is not a snapshot view and the resolved deckcode is
valid with at least one decoded card. -/
theorem getServerSideProps_registerView_iff (env : ServerEnv)
    (query : ServerQuery) :
    (getServerSideProps env query).2 = true ↔
      parseSnapshot query.snapshot = false ∧
      env.validateDeckcode (resolvedDeckcode env query) = true ∧
      (env.createDeck (resolvedDeckcode env query)).cards.length ≠ 0 := by
  simp only [getServerSideProps, resolvedDeckcode]
  cases hv : env.validateDeckcode
      (resolveCodes env (parseSnapshot query.snapshot) query.code).1 with
  | false => simp [hv]
  | true =>
    by_cases hz : (env.createDeck
        (resolveCodes env (parseSnapshot query.snapshot) query.code).1).cards.length = 0
    · simp [hv, hz]
    · simp [hv, hz]

/-- Claim C10: while a save is in flight the dialog's close handler invokes
nothing, and only when no save is in progress does it invoke `onClose`. -/
theorem handleClose_saving_blocks :
    handleClose true = [] ∧ handleClose false = [DialogAction.onClose] :=
  ⟨rfl, rfl⟩

end Decklyst
